import Mathlib

/-!
Verification of the crawld daemon against its natural-language specification.

The development shallowly embeds the components of the DevMine/crawld
repository that the specification describes: the leaky-bucket error
throttler (package errbag, newest revision appended to
src/crawlers/github.go), the GitHub rate-limit adapter and error
classifier (src/crawlers/github.go), the SQL query generators and record
validation of the metadata writer (src/unnamed/part_008), the fetcher
enumeration query and per-repository update closure (src/crawld.go), and
the progress-file writer (src/crawld.go).  Pure functions of the source
become Lean functions; channel-based state becomes explicit record state;
machine integers become Nat or Int; Go errors become Option values.
-/

namespace Crawld

/-! ## Leaky-bucket throttler (package errbag)

Embedding of the newest revision of errbag.go (the one whose `Record`
takes a callback), found at the tail of src/crawlers/github.go. -/

/-- The state constants StatusThrottling and StatusOK announced to the
record callback. -/
inductive BagState
  | throttling
  | ok
  deriving DecidableEq

/-- Mirrors struct Status: the errbag state after recording an error and
the announced wait time in seconds.  A Go `Status{State: StatusOK}` value
leaves WaitTime at its zero value, modelled by an explicit 0. -/
structure Status where
  state : BagState
  waitTime : Nat
  deriving DecidableEq

/-- Mirrors struct ErrBag.  `capacity` is the buffer size of the `errChan`
token channel (the errBagSize given to New), `queue` the number of tokens
currently buffered, and `deflated` records that Deflate() has closed the
channels. -/
structure ErrBag where
  waitTime : Nat
  leakInterval : Nat
  capacity : Nat
  queue : Nat
  deflated : Bool
  deriving DecidableEq

/-- Observable outcome of one `Record(err, callback)` call: either the Go
runtime panics (send on a closed channel), or the call returns with the
new queue occupancy, the Status handed to the callback (none when no
callback was given or none was invoked), and the seconds slept. -/
inductive RecordResult
  | panicked
  | returned (queue : Nat) (cbStatus : Option Status) (sleepSeconds : Nat)
  deriving DecidableEq

/-- Embedding of ErrBag.Record.  A nil error is ignored.  Otherwise the
non-blocking send `eb.errChan <- struct{}{}` panics if the channel is
closed, succeeds when the buffer has room (callback sees StatusOK), and
falls to the default branch when the buffer is full (callback sees
StatusThrottling with WaitTime, then the caller sleeps waitTime
seconds). -/
def ErrBag.record (eb : ErrBag) (err : Option String) (hasCallback : Bool) : RecordResult :=
  match err with
  | none => .returned eb.queue none 0
  | some _ =>
    if eb.deflated then
      .panicked
    else if eb.queue < eb.capacity then
      .returned (eb.queue + 1) (if hasCallback then some ⟨BagState.ok, 0⟩ else none) 0
    else
      .returned eb.queue (if hasCallback then some ⟨BagState.throttling, eb.waitTime⟩ else none)
        eb.waitTime

/-- Embedding of ErrBag.Deflate: the done and error channels are closed,
after which any send into `errChan` panics. -/
def ErrBag.deflate (eb : ErrBag) : ErrBag :=
  { eb with deflated := true }

/-- Claim C1: for every inflated ErrBag and every Record(err, cb) call
with non-nil err, a queue below capacity gains one token, the callback
observes state OK with WaitTime 0 and Record returns without sleeping; a
full queue leaves the token count unchanged, the callback observes state
THROTTLING with WaitTime equal to the configured wait seconds and Record
sleeps that long; a nil err makes Record a no-op. -/
theorem c1_record_semantics (eb : ErrBag) (hInflated : eb.deflated = false)
    (e : String) (hasCb : Bool) :
    (eb.queue < eb.capacity →
      eb.record (some e) hasCb =
        RecordResult.returned (eb.queue + 1)
          (if hasCb then some ⟨BagState.ok, 0⟩ else none) 0) ∧
    (¬ eb.queue < eb.capacity →
      eb.record (some e) hasCb =
        RecordResult.returned eb.queue
          (if hasCb then some ⟨BagState.throttling, eb.waitTime⟩ else none) eb.waitTime) ∧
    eb.record none hasCb = RecordResult.returned eb.queue none 0 := by
  refine ⟨fun h => ?_, fun h => ?_, rfl⟩ <;> simp [ErrBag.record, hInflated, h]

/-- Concrete instantiation of c1_record_semantics: a bag of capacity 60
holding 3 tokens accepts a fourth and reports OK without sleeping. -/
theorem c1_record_semantics_witness :
    ErrBag.record ⟨5, 1000, 60, 3, false⟩ (some "disk error") true =
      RecordResult.returned 4 (some ⟨BagState.ok, 0⟩) 0 :=
  (c1_record_semantics ⟨5, 1000, 60, 3, false⟩ rfl "disk error" true).1 (by decide)

/-- Claim C5 counterexample: the claim quantifies over every error value,
but a Record call with a nil error after Deflate() returns normally
instead of panicking, because `if err != nil` guards the whole body and
the closed channel is never touched. -/
theorem c5_counterexample :
    ErrBag.record (ErrBag.deflate ⟨5, 1000, 60, 3, false⟩) none true =
      RecordResult.returned 3 none 0 ∧
    ErrBag.record (ErrBag.deflate ⟨5, 1000, 60, 3, false⟩) none true ≠
      RecordResult.panicked := by
  exact ⟨rfl, by decide⟩

/-- Claim C5 amended: every Record call with a NON-nil error made after
Deflate() panics (send on the closed errChan), for every callback; a
Record call with a nil error after Deflate() is a no-op and does not
panic. -/
theorem c5_record_after_deflate (eb : ErrBag) (err : Option String) (hasCb : Bool)
    (hErr : err ≠ none) :
    (eb.deflate).record err hasCb = RecordResult.panicked ∧
    (eb.deflate).record none hasCb = RecordResult.returned eb.queue none 0 := by
  cases err with
  | none => exact absurd rfl hErr
  | some e => exact ⟨by simp [ErrBag.record, ErrBag.deflate], rfl⟩

/-- Concrete instantiation of c5_record_after_deflate at a non-nil
error. -/
theorem c5_record_after_deflate_witness :
    ErrBag.record (ErrBag.deflate ⟨5, 1000, 60, 3, false⟩) (some "disk error") true =
      RecordResult.panicked :=
  (c5_record_after_deflate ⟨5, 1000, 60, 3, false⟩ (some "disk error") true (by decide)).1

/-! ## Per-repository update closure (src/crawld.go, repoWorker)

The `update` closure of repoWorker records every update failure in the
errbag and then decides between skipping the task and a destructive
delete-and-re-clone.  Package repo exports the two sentinel errors
ErrNetwork and ErrNoSpace (src/unnamed/part_002). -/

/-- Errors surfaced by the repo backend: the two sentinels of package
repo plus arbitrary other errors. -/
inductive RepoErr
  | errNetwork
  | errNoSpace
  | failure (msg : String)
  deriving DecidableEq

/-- Observable effects of one run of the update closure on a task:
how many times `errBag.Record` ran with a non-nil error, whether the
working tree was removed, whether a re-clone was attempted, and the error
the closure returned. -/
structure UpdateTrace where
  recorded : Nat
  removedTree : Bool
  recloned : Bool
  result : Option RepoErr
  deriving DecidableEq

/-- Embedding of the `update` closure of repoWorker (src/crawld.go).
`updateRes` is what r.Update() returned, `removeOk` whether
os.RemoveAll(r.AbsPath()) succeeded, `cloneRes` what r.Clone() returned
during the re-clone (the `clone` closure records its own failure). -/
def updateClosure (updateRes : Option RepoErr) (removeOk : Bool)
    (cloneRes : Option RepoErr) : UpdateTrace :=
  match updateRes with
  | none => ⟨0, false, false, none⟩
  | some e =>
    if e = RepoErr.errNetwork then
      ⟨1, false, false, some e⟩
    else if removeOk then
      match cloneRes with
      | none => ⟨1, true, true, none⟩
      | some ce => ⟨2, true, true, some ce⟩
    else
      ⟨2, false, false, some e⟩

/-- Claim C2 counterexample: an Update() failure with ErrNoSpace is NOT
handled like ErrNetwork.  The closure compares the error against
repo.ErrNetwork only, so ErrNoSpace falls through to the destructive
branch: the working tree is deleted and the repository re-cloned, while
ErrNetwork is recorded and skipped without touching the tree. -/
theorem c2_counterexample :
    updateClosure (some RepoErr.errNoSpace) true none =
      UpdateTrace.mk 1 true true none ∧
    (updateClosure (some RepoErr.errNoSpace) true none).removedTree = true ∧
    (updateClosure (some RepoErr.errNoSpace) true none).recloned = true ∧
    updateClosure (some RepoErr.errNetwork) true none =
      UpdateTrace.mk 1 false false (some RepoErr.errNetwork) := by
  decide

/-- Claim C2 amended: an Update() failure with ErrNoSpace is treated like
any other non-network error, not like ErrNetwork: the error is recorded,
then the working tree is deleted and the repository re-cloned (when the
removal succeeds; a failed removal is recorded again and the task gives
up).  Only ErrNetwork makes the closure record the error and skip the
task with no destructive action. -/
theorem c2_nospace_like_generic (removeOk : Bool) (cloneRes : Option RepoErr) :
    ((updateClosure (some RepoErr.errNoSpace) removeOk cloneRes).recorded =
      (updateClosure (some (RepoErr.failure "io failure")) removeOk cloneRes).recorded ∧
     (updateClosure (some RepoErr.errNoSpace) removeOk cloneRes).removedTree =
      (updateClosure (some (RepoErr.failure "io failure")) removeOk cloneRes).removedTree ∧
     (updateClosure (some RepoErr.errNoSpace) removeOk cloneRes).recloned =
      (updateClosure (some (RepoErr.failure "io failure")) removeOk cloneRes).recloned) ∧
    updateClosure (some RepoErr.errNoSpace) true none = UpdateTrace.mk 1 true true none ∧
    updateClosure (some RepoErr.errNetwork) removeOk cloneRes =
      UpdateTrace.mk 1 false false (some RepoErr.errNetwork) := by
  cases removeOk <;> cases cloneRes <;> simp [updateClosure]

/-! ## Rate-limit adapter (src/crawlers/github.go, gitHubCrawler.call)

`call` re-invokes the wrapped API function while it returns the
errTooManyCall sentinel, sleeping `reset − now + 1` seconds between
attempts.  Its Go signature returns only the result value
(`interface{}`): the final error of the wrapped function is dropped. -/

/-- Sentinel error values of package crawlers (declared next to
invalidStructError in src/unnamed/part_006), plus arbitrary other Go
errors carrying their message. -/
inductive CrawlErr
  | tooManyCall
  | unavailable
  | runtime
  | invalidArgs
  | nilArg
  | invalidParamType
  | goError (msg : String)
  deriving DecidableEq

/-- The Error() message of each of the modelled error values. -/
def CrawlErr.message : CrawlErr → String
  | tooManyCall => "API rate limit exceeded"
  | unavailable => "resource unavailable"
  | runtime => "runtime error"
  | invalidArgs => "invalid arguments"
  | nilArg => "nil argument"
  | invalidParamType => "invalid parameter type"
  | goError msg => msg

/-- Sleep duration computed by call before a retry:
`reset - time.Now().Unix() + 1` seconds. -/
def ghWaitTime (reset now : Int) : Int := reset - now + 1

/-- Embedding of the retry loop of gitHubCrawler.call.  `fct k` is the
result and error of the k-th invocation of the wrapped function,
`resetOf k` and `nowOf k` the rate-limit reset instant and current Unix
time observed after that invocation.  The result is the value `call`
returns (none while the fuel runs out before a non-sentinel answer)
paired with the list of sleep durations performed. -/
def callLoop {α : Type} (fct : Nat → Option α × Option CrawlErr)
    (resetOf nowOf : Nat → Int) : Nat → Nat → Option (Option α) × List Int
  | _, 0 => (none, [])
  | k, fuel + 1 =>
    if (fct k).2 = some CrawlErr.tooManyCall then
      ((callLoop fct resetOf nowOf (k + 1) fuel).1,
        ghWaitTime (resetOf k) (nowOf k) :: (callLoop fct resetOf nowOf (k + 1) fuel).2)
    else
      (some (fct k).1, [])

/-- Embedding of gitHubCrawler.call: run the retry loop from the first
attempt. -/
def call {α : Type} (fct : Nat → Option α × Option CrawlErr)
    (resetOf nowOf : Nat → Int) (fuel : Nat) : Option (Option α) × List Int :=
  callLoop fct resetOf nowOf 0 fuel

/-- Claim C3 counterexample: non-sentinel errors do NOT bubble up to the
caller of call.  The Go signature of call returns only the result value,
so a run whose wrapped function fails with errUnavailable is
indistinguishable from one failing with any other database error: both
return a bare nil result carrying no error at all. -/
theorem c3_counterexample :
    call (fun _ => ((none : Option Nat), some CrawlErr.unavailable))
        (fun _ => 0) (fun _ => 0) 5 = (some none, []) ∧
    call (fun _ => ((none : Option Nat), some CrawlErr.unavailable))
        (fun _ => 0) (fun _ => 0) 5 =
      call (fun _ => ((none : Option Nat), some (CrawlErr.goError "database write failed")))
        (fun _ => 0) (fun _ => 0) 5 := by
  exact ⟨rfl, rfl⟩

/-- Structure of a terminating callLoop run, generalised over the start
index: the returned value is the result of the first non-sentinel
invocation, every earlier invocation returned the sentinel, and one sleep
of `reset − now + 1` seconds was performed per sentinel answer. -/
theorem callLoop_spec {α : Type} (fct : Nat → Option α × Option CrawlErr)
    (resetOf nowOf : Nat → Int) :
    ∀ fuel k v sleeps, callLoop fct resetOf nowOf k fuel = (some v, sleeps) →
      ∃ i, i < fuel ∧ (fct (k + i)).2 ≠ some CrawlErr.tooManyCall ∧
        v = (fct (k + i)).1 ∧
        (∀ j, j < i → (fct (k + j)).2 = some CrawlErr.tooManyCall) ∧
        sleeps = (List.range i).map (fun j => ghWaitTime (resetOf (k + j)) (nowOf (k + j))) := by
  intro fuel
  induction fuel with
  | zero => intro k v sleeps h; simp [callLoop] at h
  | succ fuel ih =>
    intro k v sleeps h
    by_cases hs : (fct k).2 = some CrawlErr.tooManyCall
    · rcases hrest : callLoop fct resetOf nowOf (k + 1) fuel with ⟨res, sl⟩
      rw [callLoop, if_pos hs, hrest] at h
      simp only [Prod.mk.injEq] at h
      obtain ⟨h1, h2⟩ := h
      obtain ⟨i, hi, hne, hv, hall, hsl⟩ := ih (k + 1) v sl (by rw [hrest, h1])
      refine ⟨i + 1, by omega, ?_, ?_, ?_, ?_⟩
      · have hk : k + (i + 1) = k + 1 + i := by omega
        rw [hk]; exact hne
      · have hk : k + (i + 1) = k + 1 + i := by omega
        rw [hk]; exact hv
      · intro j hj
        cases j with
        | zero => exact hs
        | succ j =>
          have hk : k + (j + 1) = k + 1 + j := by omega
          rw [hk]; exact hall j (by omega)
      · rw [← h2, hsl, List.range_succ_eq_map, List.map_cons, List.map_map]
        refine congrArg₂ _ rfl ?_
        refine congrArg (fun f => List.map f (List.range i)) (funext fun j => ?_)
        simp only [Function.comp, Nat.succ_eq_add_one]
        have hk : k + 1 + j = k + (j + 1) := by omega
        rw [hk]
    · rw [callLoop, if_neg hs] at h
      simp only [Prod.mk.injEq] at h
      obtain ⟨h1, h2⟩ := h
      exact ⟨0, by omega, hs, (Option.some.inj h1).symm,
        fun j hj => absurd hj (Nat.not_lt_zero j), by simp [← h2]⟩

/-- Claim C3 amended: call re-invokes the wrapped function after sleeping
`reset − now + 1` seconds whenever it returns the rate-limit sentinel, so
call never returns while the function reports rate exhaustion; when the
function returns any other error (or none) call stops retrying, but the
error does not bubble up: call returns only the result value of that
final invocation. -/
theorem c3_retry_until_not_exceeded {α : Type} (fct : Nat → Option α × Option CrawlErr)
    (resetOf nowOf : Nat → Int) (fuel : Nat) (v : Option α) (sleeps : List Int)
    (h : call fct resetOf nowOf fuel = (some v, sleeps)) :
    ∃ k, k < fuel ∧ (fct k).2 ≠ some CrawlErr.tooManyCall ∧ v = (fct k).1 ∧
      (∀ j, j < k → (fct j).2 = some CrawlErr.tooManyCall) ∧
      sleeps = (List.range k).map (fun j => ghWaitTime (resetOf j) (nowOf j)) := by
  have := callLoop_spec fct resetOf nowOf fuel 0 v sleeps h
  simpa using this

/-- Wrapped function used to instantiate c3_retry_until_not_exceeded: the
first attempt hits the rate limit, the second succeeds with value 42. -/
def c3SampleFct (k : Nat) : Option Nat × Option CrawlErr :=
  if k = 0 then (none, some CrawlErr.tooManyCall) else (some 42, none)

/-- Concrete instantiation of c3_retry_until_not_exceeded: with reset 10
and clock 3 the one retry sleeps 8 seconds and call returns 42. -/
theorem c3_retry_until_not_exceeded_witness :
    ∃ k, k < 3 ∧ (c3SampleFct k).2 ≠ some CrawlErr.tooManyCall ∧
      (some 42 : Option Nat) = (c3SampleFct k).1 ∧
      (∀ j, j < k → (c3SampleFct j).2 = some CrawlErr.tooManyCall) ∧
      ([8] : List Int) = (List.range k).map (fun _ => ghWaitTime 10 3) :=
  c3_retry_until_not_exceeded c3SampleFct (fun _ => 10) (fun _ => 3) 3 (some 42) [8] (by decide)

/-! ## Progress persistence (src/crawld.go, main)

The progress goroutine reads repository row ids from idChan and, for each
id, seeks the last_fetched_id file to offset zero and writes the id with
`fmt.Fprintf(f, "%020d", id)`.  The file is opened without O_TRUNC, so a
write replaces exactly the bytes it covers.  File contents are modelled
as the list of their characters. -/

/-- ASCII digit character for a decimal digit value. -/
def decChar (d : Nat) : Char := Char.ofNat (48 + d)

/-- Fuel-driven decimal digit printer, mirroring the structure of the
Nat.toDigits runtime that backs the %d verb.  24 units of fuel cover
every number below 10^24, hence every uint64. -/
def decDigitsCore : Nat → Nat → List Char → List Char
  | 0, _, acc => acc
  | fuel + 1, n, acc =>
    if n < 10 then decChar n :: acc
    else decDigitsCore fuel (n / 10) (decChar (n % 10) :: acc)

/-- Decimal representation of a number, as printed by the %d verb. -/
def decRepr (n : Nat) : List Char := decDigitsCore 24 n []

/-- Output of `fmt.Fprintf(_, "%020d", id)`: the decimal representation
left-padded with zeros to width 20. -/
def formatID (id : Nat) : List Char :=
  List.replicate (20 - (decRepr id).length) '0' ++ decRepr id

/-- Writing `new` at offset zero of a file currently holding `file`:
the written bytes replace the prefix they cover, the rest of the file
stays (no truncation). -/
def writeAt0 (file new : List Char) : List Char := new ++ file.drop new.length

/-- The progress writer draining a sequence of delivered ids: one
seek-to-zero and %020d write per id, in delivery order. -/
def progressRun (init : List Char) (ids : List Nat) : List Char :=
  ids.foldl (fun f id => writeAt0 f (formatID id)) init

/-- Decimal parser modelling strconv.ParseUint reading the file back:
defined on non-empty all-digit strings. -/
def digitVal (c : Char) : Nat := c.toNat - 48

/-- Parse a file content as a base-10 unsigned integer, strconv style. -/
def parseDec (cs : List Char) : Option Nat :=
  if cs.isEmpty then none
  else if cs.all (fun c => decide (48 ≤ c.toNat) && decide (c.toNat ≤ 57)) then
    some (cs.foldl (fun a c => a * 10 + digitVal c) 0)
  else none

/-- Delivery orders in which each id is at most its successor. -/
def nonDecreasing : List Nat → Bool
  | [] => true
  | [_] => true
  | x :: y :: rest => decide (x ≤ y) && nonDecreasing (y :: rest)

/-- The fuelled digit printer emits at most k digits for inputs below
10^k, provided the fuel covers k. -/
theorem decDigitsCore_length_le :
    ∀ fuel k n acc, n < 10 ^ k → 1 ≤ k → k ≤ fuel →
      (decDigitsCore fuel n acc).length ≤ k + acc.length := by
  intro fuel
  induction fuel with
  | zero => intro k n acc _ h1 h2; omega
  | succ fuel ih =>
    intro k n acc hn h1 h2
    rw [decDigitsCore]
    by_cases h10 : n < 10
    · rw [if_pos h10]; simp; omega
    · rw [if_neg h10]
      have hk2 : 2 ≤ k := by
        by_contra hcon
        have hk1 : k = 1 := by omega
        subst hk1
        rw [pow_one] at hn
        omega
      have hdiv : n / 10 < 10 ^ (k - 1) := by
        have hpow : 10 * 10 ^ (k - 1) = 10 ^ k := by
          rw [mul_comm, ← pow_succ]
          congr 1
          omega
        exact Nat.div_lt_of_lt_mul (by omega)
      have hrec := ih (k - 1) (n / 10) (decChar (n % 10) :: acc) hdiv (by omega) (by omega)
      simp only [List.length_cons] at hrec
      omega

/-- A number below 10^20 prints in at most 20 digits. -/
theorem decRepr_length_le (n : Nat) (h : n < 10 ^ 20) : (decRepr n).length ≤ 20 := by
  have := decDigitsCore_length_le 24 20 n [] h (by omega) (by omega)
  simpa using this

/-- The %020d output of a number below 10^20 is exactly 20 characters. -/
theorem formatID_length (n : Nat) (h : n < 10 ^ 20) : (formatID n).length = 20 := by
  have := decRepr_length_le n h
  simp only [formatID, List.length_append, List.length_replicate]
  omega

/-- A write at offset zero that is at least as long as the current file
replaces it entirely. -/
theorem writeAt0_covers (file new : List Char) (h : file.length ≤ new.length) :
    writeAt0 file new = new := by
  rw [writeAt0, List.drop_eq_nil_of_le h, List.append_nil]

/-- After the writer drains a non-empty delivery sequence over a file of
at most 20 characters, the file holds exactly the %020d rendering of the
LAST delivered id. -/
theorem progressRun_last :
    ∀ (ids : List Nat) (init : List Char), init.length ≤ 20 →
      (∀ id ∈ ids, id < 10 ^ 20) → (hne : ids ≠ []) →
      progressRun init ids = formatID (ids.getLast hne)
  | [], _, _, _, hne => absurd rfl hne
  | [x], init, hinit, hids, _ => by
      have hx : x < 10 ^ 20 := hids x (by simp)
      have hstep : progressRun init [x] = writeAt0 init (formatID x) := rfl
      rw [hstep, writeAt0_covers init (formatID x) (by rw [formatID_length x hx]; exact hinit)]
      rfl
  | x :: y :: rest, init, hinit, hids, _ => by
      have hx : x < 10 ^ 20 := hids x (by simp)
      have hstep : progressRun init (x :: y :: rest) =
          progressRun (writeAt0 init (formatID x)) (y :: rest) := rfl
      have hlen : (writeAt0 init (formatID x)).length ≤ 20 := by
        rw [writeAt0_covers init (formatID x) (by rw [formatID_length x hx]; exact hinit),
          formatID_length x hx]
      rw [hstep, progressRun_last (y :: rest) _ hlen
        (fun id hid => hids id (List.mem_cons_of_mem x hid)) (by simp)]
      exact congrArg formatID (List.getLast_cons (by simp)).symm

/-- In a non-decreasing delivery order, every delivered id is bounded by
the last one. -/
theorem le_getLast_of_nonDecreasing :
    ∀ (ids : List Nat) (hne : ids ≠ []), nonDecreasing ids = true →
      ∀ x ∈ ids, x ≤ ids.getLast hne
  | [], hne, _ => absurd rfl hne
  | [a], _, _ => by
      intro x hx
      simp only [List.mem_singleton] at hx
      subst hx
      exact le_of_eq rfl
  | a :: b :: rest, _, hmono => by
      intro x hx
      have h1 : a ≤ b ∧ nonDecreasing (b :: rest) = true := by
        simpa [nonDecreasing, Bool.and_eq_true] using hmono
      have htail := le_getLast_of_nonDecreasing (b :: rest) (by simp) h1.2
      have hlast : (a :: b :: rest).getLast (by simp) = (b :: rest).getLast (by simp) :=
        List.getLast_cons (by simp)
      rw [hlast]
      rcases List.mem_cons.mp hx with hxa | hxtail
      · subst hxa
        exact le_trans h1.1 (htail b (List.mem_cons_self b rest))
      · exact htail x hxtail

/-- Claim C4 counterexample: the claim quantifies over every delivered
sequence, but out-of-order delivery (possible with several fetcher
workers completing tasks concurrently) leaves a SMALLER id in the file
than one emitted earlier: after delivering 7 then 5, the drained file
parses to 5 even though 7 was emitted during the cycle, and the written
values 7, 5 are not monotonically non-decreasing. -/
theorem c4_counterexample :
    progressRun [] [7, 5] = formatID 5 ∧
    parseDec (progressRun [] [7, 5]) = some 5 ∧
    ¬ (7 ≤ 5) ∧
    (progressRun [] [7, 5]).length = 20 := by decide

/-- Claim C4 amended: each delivered id is written at offset zero as a
20-character zero-padded decimal, overwriting rather than appending, so
the drained file holds exactly the LAST delivered id; that value bounds
every id emitted during the cycle only when the delivery order is
non-decreasing (as with a single fetcher worker). -/
theorem c4_writer_keeps_last (init : List Char) (ids : List Nat)
    (hinit : init.length ≤ 20) (hids : ∀ id ∈ ids, id < 10 ^ 20) (hne : ids ≠ [])
    (hmono : nonDecreasing ids = true) :
    progressRun init ids = formatID (ids.getLast hne) ∧
    (progressRun init ids).length = 20 ∧
    ∀ x ∈ ids, x ≤ ids.getLast hne := by
  refine ⟨progressRun_last ids init hinit hids hne, ?_,
    le_getLast_of_nonDecreasing ids hne hmono⟩
  rw [progressRun_last ids init hinit hids hne]
  exact formatID_length _ (hids _ (List.getLast_mem hne))

/-- Concrete instantiation of c4_writer_keeps_last: delivering 3 then
1234 over an empty file leaves the padded rendering of 1234. -/
theorem c4_writer_keeps_last_witness :
    progressRun [] [3, 1234] = formatID 1234 ∧
    (progressRun [] [3, 1234]).length = 20 ∧
    ∀ x ∈ ([3, 1234] : List Nat), x ≤ 1234 :=
  c4_writer_keeps_last [] [3, 1234] (by decide) (by decide) (by decide) (by decide)

/-! ## String helpers shared by the embeddings -/

/-- Whether the first list is a leading segment of the second. -/
def leadMatch : List Char → List Char → Bool
  | [], _ => true
  | _ :: _, [] => false
  | a :: as, b :: bs => a == b && leadMatch as bs

/-- Whether `pat` occurs contiguously inside the second list. -/
def hasSub (pat : List Char) : List Char → Bool
  | [] => pat.isEmpty
  | c :: rest => leadMatch pat (c :: rest) || hasSub pat rest

/-- Model of strings.Contains. -/
def strContains (s pat : String) : Bool := hasSub pat.toList s.toList

/-- String concatenation is associative (at the character-data level). -/
theorem string_append_assoc (a b c : String) : a ++ b ++ c = a ++ (b ++ c) := by
  rcases a with ⟨la⟩
  rcases b with ⟨lb⟩
  rcases c with ⟨lc⟩
  show String.mk (la ++ lb ++ lc) = String.mk (la ++ (lb ++ lc))
  rw [List.append_assoc]

/-! ## Metadata writer query generators (src/unnamed/part_008)

genInsQuery and genUpdateQuery build the SQL text of the upserts;
insertOrUpdateRepo (src/crawlers/github.go) picks between them by looking
the repository up by its provider-native id and appends " RETURNING id"
before executing. -/

/-- Embedding of genInsQuery: INSERT with one positional placeholder per
field. -/
def genInsQuery (tableName : String) (fields : List String) : String :=
  "INSERT INTO " ++ tableName ++ "(" ++ String.intercalate "," fields ++ ")\n"
    ++ "VALUES("
    ++ String.intercalate "," ((List.range fields.length).map fun i => "$" ++ toString (i + 1))
    ++ ")\n"

/-- Embedding of genUpdateQuery: `UPDATE <table>\nSET f1=$1,...,fn=$n`
directly followed by `WHERE id=<id>\n` (the source writes the WHERE
clause with no separator after the last SET item). -/
def genUpdateQuery (tableName : String) (id : Int) (fields : List String) : String :=
  "UPDATE " ++ tableName ++ "\n" ++ "SET "
    ++ String.intercalate "," (fields.enum.map fun p => p.2 ++ "=$" ++ toString (p.1 + 1))
    ++ "WHERE id=" ++ toString id ++ "\n"

/-- The repository-row field list of insertOrUpdateRepo. -/
def repoFields : List String := ["name", "primary_language", "clone_url", "clone_path", "vcs"]

/-- Query text executed by insertOrUpdateRepo for the repositories table:
UPDATE on a positive lookup id, INSERT when the lookup found nothing
(id 0), none when the lookup itself failed (id −1 makes the method return
false before emitting a query).  The caller appends " RETURNING id" in
both emitting branches. -/
def insertOrUpdateRepoQuery (existingID : Int) : Option String :=
  if existingID > 0 then
    some (genUpdateQuery "repositories" existingID repoFields ++ " RETURNING id")
  else if existingID = 0 then
    some (genInsQuery "repositories" repoFields ++ " RETURNING id")
  else none

/-- Claim C6 counterexample: the UPDATE emitted on a hit is not of the
claimed shape with the SET list and the WHERE clause correctly separated:
the WHERE keyword follows the final placeholder with no separator at all,
giving `vcs=$5WHERE id=42`. -/
theorem c6_counterexample :
    genUpdateQuery "repositories" 42 repoFields =
      "UPDATE repositories\nSET name=$1,primary_language=$2,clone_url=$3,clone_path=$4,vcs=$5WHERE id=42\n" ∧
    strContains (genUpdateQuery "repositories" 42 repoFields) "$5WHERE" = true ∧
    strContains (genUpdateQuery "repositories" 42 repoFields) "$5 WHERE" = false ∧
    strContains (genUpdateQuery "repositories" 42 repoFields) "$5\nWHERE" = false := by
  decide

/-- Claim C6 amended: on a hit the upsert emits
`UPDATE repositories\nSET name=$1,...,vcs=$n` immediately followed by
`WHERE id=<found>` with no separating whitespace, plus the appended
RETURNING id; on a miss it emits the INSERT with a RETURNING id
clause. -/
theorem c6_upsert_queries (id : Int) (hpos : id > 0) :
    insertOrUpdateRepoQuery id =
      some ("UPDATE repositories\nSET name=$1,primary_language=$2,clone_url=$3,clone_path=$4,vcs=$5WHERE id="
          ++ toString id ++ "\n RETURNING id") ∧
    insertOrUpdateRepoQuery 0 =
      some "INSERT INTO repositories(name,primary_language,clone_url,clone_path,vcs)\nVALUES($1,$2,$3,$4,$5)\n RETURNING id" := by
  refine ⟨?_, by decide⟩
  simp only [insertOrUpdateRepoQuery, if_pos hpos, genUpdateQuery, repoFields]
  have hB : ("UPDATE " ++ "repositories" ++ "\n" ++ "SET "
      ++ String.intercalate ","
        ((["name", "primary_language", "clone_url", "clone_path", "vcs"] : List String).enum.map
          fun p => p.2 ++ "=$" ++ toString (p.1 + 1))
      ++ "WHERE id=" : String)
      = "UPDATE repositories\nSET name=$1,primary_language=$2,clone_url=$3,clone_path=$4,vcs=$5WHERE id=" := by
    decide
  rw [hB, string_append_assoc _ "\n" " RETURNING id"]
  have hT : ("\n" ++ " RETURNING id" : String) = "\n RETURNING id" := by decide
  rw [hT]

/-- Concrete instantiation of c6_upsert_queries at the found id 42. -/
theorem c6_upsert_queries_witness :
    insertOrUpdateRepoQuery 42 =
      some ("UPDATE repositories\nSET name=$1,primary_language=$2,clone_url=$3,clone_path=$4,vcs=$5WHERE id="
          ++ toString (42 : Int) ++ "\n RETURNING id") :=
  (c6_upsert_queries 42 (by decide)).1

/-! ## Fetcher enumeration query (src/crawld.go, getAllRepos / repoWorker)

getAllRepos builds the enumeration query.  When a language filter is
configured it rewrites the given slice IN PLACE, wrapping every entry in
single quotes; repoWorker passes cfg.FetchLanguages on every cycle, so
the mutation is visible to the next cycle.  After the first enumeration
repoWorker resets startID to 0. -/

/-- Wrapping of one language name in single quotes
(`langs[idx] = "\x27" + val + "\x27"`). -/
def quoteLang (v : String) : String := "\x27" ++ v ++ "\x27"

/-- Embedding of getAllRepos restricted to its query construction: the
result is the SQL text together with the language slice as left behind
for the caller (Go slices share their backing array, so the quoting
mutates cfg.FetchLanguages itself). -/
def getAllReposQuery (startID : Nat) (langs : List String) : String × List String :=
  if langs.isEmpty then
    ("SELECT id, vcs, clone_path, clone_url FROM repositories "
      ++ ("WHERE id >= " ++ toString startID) ++ " ORDER BY id", langs)
  else
    let quoted := langs.map quoteLang
    ("SELECT id, vcs, clone_path, clone_url FROM repositories "
      ++ ("WHERE id >= " ++ toString startID
        ++ " AND LOWER(primary_language) IN (" ++ String.intercalate "," quoted ++ ")")
      ++ " ORDER BY id", quoted)

/-- State of repoWorker before its n-th fetch cycle: the start id passed
to getAllRepos (the persisted resume id before cycle 0, then always 0)
and the current contents of cfg.FetchLanguages. -/
def fetcherCycleState (startID : Nat) (langs : List String) : Nat → Nat × List String
  | 0 => (startID, langs)
  | n + 1 =>
    let s := fetcherCycleState startID langs n
    (0, (getAllReposQuery s.1 s.2).2)

/-- Enumeration query issued by the n-th fetch cycle. -/
def fetcherCycleQuery (startID : Nat) (langs : List String) (n : Nat) : String :=
  let s := fetcherCycleState startID langs n
  (getAllReposQuery s.1 s.2).1

/-- Claim C7, evaluated at the failing input: the first cycle matches the
claim (resume id 1234, the language quoted once), and the second cycle
correctly resumes from 0, but its IN list holds `\x27\x27go\x27\x27` —
the language wrapped in two pairs of quotes — because getAllRepos quoted
the shared cfg.FetchLanguages slice in place during the first cycle. -/
theorem c7_language_requoting :
    fetcherCycleQuery 1234 ["go"] 0 =
      "SELECT id, vcs, clone_path, clone_url FROM repositories WHERE id >= 1234 AND LOWER(primary_language) IN (\x27go\x27) ORDER BY id" ∧
    fetcherCycleQuery 1234 ["go"] 1 =
      "SELECT id, vcs, clone_path, clone_url FROM repositories WHERE id >= 0 AND LOWER(primary_language) IN (\x27\x27go\x27\x27) ORDER BY id" ∧
    fetcherCycleQuery 1234 [] 1 =
      "SELECT id, vcs, clone_path, clone_url FROM repositories WHERE id >= 0 ORDER BY id" := by
  decide

/-! ## Provider HTTP error classifier (src/crawlers/github.go,
gitHubCrawler.genAPICallFuncError) -/

/-- The only part of the github.Response the classifier inspects. -/
structure GHResponse where
  statusCode : Int
  deriving DecidableEq

/-- Embedding of genAPICallFuncError: a nil response returns the error
unchanged when there is one and the nil-argument sentinel otherwise; with
a response, only status 403 with a recognised substring in the error
message is rewritten to a sentinel. -/
def genAPICallFuncError (resp : Option GHResponse) (err : Option CrawlErr) : Option CrawlErr :=
  match resp with
  | none =>
    match err with
    | some e => some e
    | none => some CrawlErr.nilArg
  | some r =>
    if err = none ∨ r.statusCode ≠ 403 then err
    else
      match err with
      | none => none
      | some e =>
        if strContains e.message "API rate limit exceeded" then some CrawlErr.tooManyCall
        else if strContains e.message "access blocked" then some CrawlErr.unavailable
        else some e

/-- Classifier as the specification words it, amended with the
nil-response/nil-error rule the code forces: 403 plus a message
containing the rate-limit text gives the RateExceeded sentinel, 403 plus
"access blocked" gives Unavailable, everything else passes through,
except that a nil response together with a nil error yields the
nil-argument sentinel. -/
def specErrClassifier (resp : Option GHResponse) (err : Option CrawlErr) : Option CrawlErr :=
  match resp, err with
  | none, none => some CrawlErr.nilArg
  | some r, some e =>
    if r.statusCode = 403 ∧ strContains e.message "API rate limit exceeded" = true then
      some CrawlErr.tooManyCall
    else if r.statusCode = 403 ∧ strContains e.message "access blocked" = true then
      some CrawlErr.unavailable
    else some e
  | _, e => e

/-- Claim C8 counterexample: the pair of a nil response and a nil error
is not passed through unchanged (pass-through would return the nil
error); the classifier manufactures the nil-argument sentinel instead. -/
theorem c8_counterexample :
    genAPICallFuncError none none = some CrawlErr.nilArg ∧
    some CrawlErr.nilArg ≠ (none : Option CrawlErr) := by decide

/-- Claim C8 amended: the classifier realises exactly the two 403 rules
with pass-through for every other pair, except that a nil response with a
nil error yields the nil-argument sentinel. -/
theorem c8_classifier_agrees (resp : Option GHResponse) (err : Option CrawlErr) :
    genAPICallFuncError resp err = specErrClassifier resp err := by
  cases resp with
  | none => cases err <;> rfl
  | some r =>
    cases err with
    | none => simp [genAPICallFuncError, specErrClassifier]
    | some e =>
      by_cases h403 : r.statusCode = 403
      · by_cases hrate : strContains e.message "API rate limit exceeded" = true
        · simp [genAPICallFuncError, specErrClassifier, h403, hrate]
        · by_cases hblock : strContains e.message "access blocked" = true
          · simp [genAPICallFuncError, specErrClassifier, h403, hrate, hblock]
          · simp [genAPICallFuncError, specErrClassifier, h403, hrate, hblock]
      · simp [genAPICallFuncError, specErrClassifier, h403]

/-! ## Repository record validation (src/unnamed/part_008, verifyRepo)

verifyRepo collects the names of the required fields that are nil into a
single invalidStructError and refuses the record when any is missing. -/

/-- The one field of the owner record that verifyRepo inspects. -/
structure GHOwner where
  login : Option String
  deriving DecidableEq

/-- The fields of github.Repository that verifyRepo inspects; each is a
pointer in Go, hence an Option here. -/
structure GHRepo where
  id : Option Int
  name : Option String
  language : Option String
  cloneURL : Option String
  owner : Option GHOwner
  fork : Option Bool
  deriving DecidableEq

/-- Mirrors invalidStructError (src/unnamed/part_006): a message plus the
accumulated field names. -/
structure InvalidStructError where
  message : String
  fields : List String
  deriving DecidableEq

/-- The names of the missing required fields, in the order verifyRepo
checks them.  A missing owner masks the owner login, which only exists
inside an owner record. -/
def missingFields (repo : GHRepo) : List String :=
  (match repo.id with
    | none => ["ID"]
    | some _ => [])
  ++ (if repo.name = none then ["Name"] else [])
  ++ (if repo.language = none then ["Language"] else [])
  ++ (if repo.cloneURL = none then ["CloneURL"] else [])
  ++ (match repo.owner with
    | none => ["Owner"]
    | some o => if o.login = none then ["Owner.Login"] else [])
  ++ (if repo.fork = none then ["Fork"] else [])

/-- Embedding of verifyRepo: a nil repo is refused outright; otherwise
the missing-field names are accumulated (the message embeds the provider
id when present) and the record is refused exactly when the list is
non-empty. -/
def verifyRepo : Option GHRepo → Option InvalidStructError
  | none => some ⟨"verifyRepo: repo is nil", []⟩
  | some repo =>
    let base : InvalidStructError :=
      match repo.id with
      | none => ⟨"verifyRepo: contains nil fields:", ["ID"]⟩
      | some i => ⟨"verifyRepo: repo #" ++ toString i ++ " contains nil fields: ", []⟩
    let fs := base.fields
      ++ (if repo.name = none then ["Name"] else [])
      ++ (if repo.language = none then ["Language"] else [])
      ++ (if repo.cloneURL = none then ["CloneURL"] else [])
      ++ (match repo.owner with
        | none => ["Owner"]
        | some o => if o.login = none then ["Owner.Login"] else [])
      ++ (if repo.fork = none then ["Fork"] else [])
    if fs.length > 0 then some ⟨base.message, fs⟩ else none

/-- Refusal shape of a collect-then-test validator: the guarded value is
none exactly when the collected list is empty, and any error carries
exactly that list. -/
theorem collectGate (msg : String) (L : List String) :
    ((if L.length > 0 then some (InvalidStructError.mk msg L) else none) = none ↔ L = []) ∧
    (∀ e, (if L.length > 0 then some (InvalidStructError.mk msg L) else none) = some e →
      e.fields = L) := by
  by_cases hL : L.length > 0
  · rw [if_pos hL]
    refine ⟨⟨fun hc => (by cases hc), fun hc => ?_⟩, fun e he => (by cases he; rfl)⟩
    subst hc
    simp at hL
  · rw [if_neg hL]
    have hnil : L = [] := by
      cases L with
      | nil => rfl
      | cons a as => simp at hL
    exact ⟨⟨fun _ => hnil, fun _ => rfl⟩, fun e he => by cases he⟩

/-- Claim C9: verifyRepo accepts a record exactly when all seven required
fields are present, and any refusal is a single structured error listing
exactly the missing fields. -/
theorem c9_verify_refuses_missing (repo : GHRepo) :
    (verifyRepo (some repo) = none ↔ missingFields repo = []) ∧
    (∀ e, verifyRepo (some repo) = some e → e.fields = missingFields repo) := by
  rcases repo with ⟨id, name, lang, url, owner, fork⟩
  cases id with
  | none => exact collectGate "verifyRepo: contains nil fields:" _
  | some i => exact collectGate ("verifyRepo: repo #" ++ toString i ++ " contains nil fields: ") _

/-- Record missing only its name, used to instantiate
c9_verify_refuses_missing. -/
def sampleRepo : GHRepo :=
  ⟨some 7, none, some "Go", some "https://host/repo.git", some ⟨some "alice"⟩, some false⟩

/-- Concrete instantiation of c9_verify_refuses_missing: the refusal for
sampleRepo lists exactly its one missing field. -/
theorem c9_verify_refuses_missing_witness :
    InvalidStructError.fields ⟨"verifyRepo: repo #7 contains nil fields: ", ["Name"]⟩ =
      missingFields sampleRepo :=
  (c9_verify_refuses_missing sampleRepo).2
    ⟨"verifyRepo: repo #7 contains nil fields: ", ["Name"]⟩ (by decide)

/-! ## Language filter (src/unnamed/part_008, isLanguageWanted) -/

/-- ASCII case folding of one character, modelling the per-rune simple
folding strings.EqualFold performs (the repository only configures ASCII
language names). -/
def charLower (c : Char) : Char :=
  if 65 ≤ c.toNat ∧ c.toNat ≤ 90 then Char.ofNat (c.toNat + 32) else c

/-- Model of strings.EqualFold on ASCII data. -/
def eqFold (a b : String) : Bool := a.toList.map charLower == b.toList.map charLower

/-- The dynamic types isLanguageWanted accepts through its interface{}
argument: a language→bytes map, a possibly-nil string pointer, or any
other type (whose name is irrelevant to the result). -/
inductive LangValue
  | langMap (entries : List (String × Int))
  | strPtr (s : Option String)
  | otherVal (typeName : String)
  deriving DecidableEq

/-- Embedding of isLanguageWanted: a nil interface value is unwanted
without error; map keys are compared with strings.EqualFold; a string
pointer is compared with ==; any other type is an error. -/
def isLanguageWanted (suppLangs : List String) (prjLangs : Option LangValue) :
    Bool × Option String :=
  match prjLangs with
  | none => (false, none)
  | some (LangValue.langMap entries) =>
    (entries.any fun kv => suppLangs.any fun v => eqFold kv.1 v, none)
  | some (LangValue.strPtr none) => (false, none)
  | some (LangValue.strPtr (some lang)) => (suppLangs.any fun sl => sl == lang, none)
  | some (LangValue.otherVal _) => (false, some "isLanguageSupported: invalid prjLangs type")

/-- Claim C10: the filter on a primary-language string matches only under
exact case-sensitive equality, the filter on a language-breakdown map
matches keys case-insensitively, nil values yield false without error,
and any other dynamic type yields an error.  The last two conjuncts
witness the asymmetry on concrete data: the string "Go" misses the
configured "go" while the map key "Go" matches it. -/
theorem c10_language_filter (langs : List String) (s : String)
    (entries : List (String × Int)) :
    ((isLanguageWanted langs (some (LangValue.strPtr (some s)))).1 = true ↔ s ∈ langs) ∧
    ((isLanguageWanted langs (some (LangValue.langMap entries))).1 = true ↔
      ∃ kv ∈ entries, ∃ v ∈ langs, kv.1.toList.map charLower = v.toList.map charLower) ∧
    isLanguageWanted langs none = (false, none) ∧
    isLanguageWanted langs (some (LangValue.strPtr none)) = (false, none) ∧
    (∀ t, isLanguageWanted langs (some (LangValue.otherVal t)) =
      (false, some "isLanguageSupported: invalid prjLangs type")) ∧
    isLanguageWanted ["go"] (some (LangValue.strPtr (some "Go"))) = (false, none) ∧
    isLanguageWanted ["go"] (some (LangValue.langMap [("Go", 1)])) = (true, none) := by
  refine ⟨?_, ?_, rfl, rfl, fun t => rfl, by decide, by decide⟩
  · simp [isLanguageWanted, List.any_eq_true, beq_iff_eq]
  · simp [isLanguageWanted, List.any_eq_true, eqFold, beq_iff_eq]

end Crawld
